import Mathlib

/-!
Shallow embedding of the bolt chat-persistence module: the rewind resolver
`processStoredMessages` of `useChatHistory`, the save path
`storeMessageHistory`, the LocalStorage fallback store
(`saveChatToLocalStorage`, `getChatFromLocalStorage`), and the chat store's
`saveMessagesToLocalStorage`. JS arrays become lists, JS objects become
structures, `findIndex`/`slice` and string truthiness are modelled explicitly,
and ambient collaborators (id generators, the project-command detector, the
workbench file map, the clock) become explicit parameters.
-/

set_option maxHeartbeats 1000000

/-- Role of a chat message, mirroring the `ai` SDK message roles the code
reads (`user`, `assistant`) plus the remaining SDK roles. -/
inductive Role
  | user
  | assistant
  | system
  | data
deriving DecidableEq

/-- One element of a message's `annotations` array: either a plain string tag
(such as `no-store` or `hidden`) or a structured object carrying a `type`
discriminator (such as the chat-summary context object built by the
resolver). -/
inductive Ann
  | tag (s : String)
  | obj (type : String) (chatId : Option String) (summary : Option String)
deriving DecidableEq

/-- A chat message as used by `processStoredMessages` and
`storeMessageHistory`: the fields of the `ai` SDK `Message` the code reads or
writes. -/
structure Message where
  id : String
  role : Role
  content : String
  annotations : List Ann
deriving DecidableEq

/-- A file-map entry of a snapshot: a tagged variant of file (with content and
binary flag) or folder, mirroring the `FileMap` values the code inspects. -/
inductive FileEntry
  | file (content : String) (isBinary : Bool)
  | folder
deriving DecidableEq

/-- A project snapshot: the anchor message id (`chatIndex`), the captured file
map (an ordered list of path/entry pairs, mirroring JS object entries), and an
optional conversation summary. -/
structure Snapshot where
  chatIndex : String
  files : List (String × FileEntry)
  summary : Option String
deriving DecidableEq

/-- JS truthiness of a `string | null | undefined` value: null, undefined and
the empty string are falsy. -/
def truthyOptStr : Option String → Bool
  | none => false
  | some s => !(s == "")

/-- JS `a || b` on `string | null | undefined` values. -/
def jsOrStr (a b : Option String) : Option String :=
  if truthyOptStr a then a else b

/-- JS `Array.prototype.findIndex`: index of the first element satisfying `p`,
or `-1` when there is none. -/
def jsFindIndex (p : α → Bool) : List α → Int
  | [] => -1
  | x :: rest =>
    if p x then 0
    else
      let r := jsFindIndex p rest
      if 0 ≤ r then r + 1 else -1

/-- Clamp one index argument of JS `Array.prototype.slice` against the array
length (negative indices count from the end). -/
def jsSliceBound (len : Nat) (i : Int) : Nat :=
  if i < 0 then ((len : Int) + i).toNat else min i.toNat len

/-- JS `Array.prototype.slice(a, b)` (half-open window). -/
def jsSlice (a b : Int) (l : List α) : List α :=
  (l.take (jsSliceBound l.length b)).drop (jsSliceBound l.length a)

/-- The snapshot defaulting on entry to `processStoredMessages`:
`snapshot || { chatIndex: '', files: {} }`. -/
def validSnapshotOf (snapshot : Option Snapshot) : Snapshot :=
  snapshot.getD { chatIndex := "", files := [], summary := none }

/-- `endingIdx` of `processStoredMessages`: one past the rewind target when a
truthy `rewindTo` parameter is given (JS `findIndex` plus one, hence `0` when
the id is absent), else the number of stored messages. An empty-string
parameter is falsy and taken as absent. -/
def endingIdxOf (messages : List Message) (rewindId : Option String) : Int :=
  match rewindId with
  | some r =>
    if r == "" then (messages.length : Int)
    else jsFindIndex (fun m => m.id == r) messages + 1
  | none => (messages.length : Int)

/-- `snapshotIndex` of `processStoredMessages`: index of the first message
whose id equals the defaulted snapshot's `chatIndex`, or `-1`. -/
def snapshotIdxOf (messages : List Message) (snapshot : Option Snapshot) : Int :=
  jsFindIndex (fun m => m.id == (validSnapshotOf snapshot).chatIndex) messages

/-- The guarded comparison `messages[snapshotIndex].id == rewindId` of the
override rule (loose equality of a string against a possibly-null value). -/
def rewindMatchesAt (messages : List Message) (rewindId : Option String) (s : Int) : Bool :=
  match messages[s.toNat]?, rewindId with
  | some m, some r => m.id == r
  | _, _ => false

/-- `startingIdx` of `processStoredMessages`: the snapshot index when it falls
inside `[0, endingIdx)`, overridden back to `-1` when the message at a
positive snapshot index has the rewind target's id. -/
def startingIdxOf (messages : List Message) (snapshot : Option Snapshot)
    (rewindId : Option String) : Int :=
  let e := endingIdxOf messages rewindId
  let s := snapshotIdxOf messages snapshot
  let st := if 0 ≤ s ∧ s < e then s else -1
  if 0 < s ∧ rewindMatchesAt messages rewindId s then -1 else st

/-- The `boltAction` block contributed by one snapshot file entry to the
restore message; folders contribute the empty string. -/
def restoreFileAction : String × FileEntry → String
  | (path, FileEntry.file content _) =>
    "\n                <boltAction type=\"file\" filePath=\"" ++ path ++ "\">\n" ++
      content ++ "\n                </boltAction>\n                "
  | (_, FileEntry.folder) => ""

/-- Content of the synthetic assistant restore message, assembled from the raw
optional snapshot's files and the externally rendered command-actions
string. -/
def restoreContent (snapshot : Option Snapshot) (commandActions : String) : String :=
  "Bolt Restored your chat from a snapshot. You can revert this message to load the full chat history.\n            <boltArtifact id=\"restored-project-setup\" title=\"Restored Project & Setup\" type=\"bundled\">\n            "
    ++ String.intercalate "\n" (((snapshot.map Snapshot.files).getD []).map restoreFileAction)
    ++ "\n            " ++ commandActions ++ " \n            </boltArtifact>\n            "

/-- The hidden synthetic user message requesting a restore. -/
def restoreUserMessage (genId : String) : Message :=
  { id := genId
    role := Role.user
    content := "Restore project from snapshot"
    annotations := [Ann.tag "no-store", Ann.tag "hidden"] }

/-- The synthetic assistant restore message: its id is the snapshot anchor
message id; it carries a `no-store` tag and, when the snapshot has a truthy
summary, a chat-summary context object tied to the anchor id. -/
def restoreAssistantMessage (anchorId : String) (summary : Option String)
    (snapshot : Option Snapshot) (commandActions : String) : Message :=
  { id := anchorId
    role := Role.assistant
    content := restoreContent snapshot commandActions
    annotations :=
      Ann.tag "no-store" ::
        (if truthyOptStr summary then [Ann.obj "chatSummary" (some anchorId) summary] else []) }

/-- Result of the rewind resolver: the active window (possibly with the
synthetic restore pair prepended) and the archived prefix. -/
structure ResolveResult where
  active : List Message
  archived : List Message
deriving DecidableEq

/-- Shallow embedding of `processStoredMessages`: resolves the active window
and the archived prefix from the stored messages, the optional snapshot and
the optional `rewindTo` parameter. `genId` stands for the `generateId()`
result used for the synthetic user message and `commandActions` for the
externally detected and rendered project-command actions string. -/
def processStoredMessages (messages : List Message) (snapshot : Option Snapshot)
    (rewindId : Option String) (genId : String) (commandActions : String) : ResolveResult :=
  let validSnapshot := validSnapshotOf snapshot
  let e := endingIdxOf messages rewindId
  let s := snapshotIdxOf messages snapshot
  let st := startingIdxOf messages snapshot rewindId
  let filtered := jsSlice (st + 1) e messages
  let archived := if 0 ≤ st then jsSlice 0 (st + 1) messages else []
  let active :=
    if 0 < st then
      restoreUserMessage genId ::
        restoreAssistantMessage ((messages[s.toNat]?.map Message.id).getD "")
          validSnapshot.summary snapshot commandActions ::
        filtered
    else filtered
  { active := active, archived := archived }

/-- Number of synthetic restore messages the resolver prepends: 2 when a
positive snapshot index survives as `startingIdx`, else 0. -/
def syntheticCount (messages : List Message) (snapshot : Option Snapshot)
    (rewindId : Option String) : Nat :=
  if 0 < startingIdxOf messages snapshot rewindId then 2 else 0

/-- Modelled from the spec: `IChatMetadata` is declared in `db.ts`, which is
not among the reviewed sources; the reviewed code only stores and compares it,
so it is modelled as an opaque record. -/
structure IChatMetadata where
  data : String
deriving DecidableEq

/-- A chat record of the LocalStorage fallback store (`LocalStorageChat`). -/
structure LocalStorageChat where
  id : String
  urlId : Option String
  description : Option String
  messages : List Message
  timestamp : String
  metadata : Option IChatMetadata
deriving DecidableEq

/-- `saveChatToLocalStorage` acting on the parsed chat list: replace the first
entry with the same id in place, else append; no-op when LocalStorage is
unavailable. -/
def saveChatToLocalStorage (avail : Bool) (chats : List LocalStorageChat)
    (chat : LocalStorageChat) : List LocalStorageChat :=
  if !avail then chats
  else
    let existingIndex := jsFindIndex (fun c => c.id == chat.id) chats
    if 0 ≤ existingIndex then chats.set existingIndex.toNat chat
    else chats ++ [chat]

/-- `getChatFromLocalStorage`: the first stored chat with the given id, if
any; `none` when LocalStorage is unavailable. -/
def getChatFromLocalStorage (avail : Bool) (chats : List LocalStorageChat)
    (id : String) : Option LocalStorageChat :=
  if !avail then none
  else chats.find? (fun c => c.id == id)

/-- The chat store state (`ChatState` in `chat.ts`). -/
structure ChatState where
  started : Bool
  aborted : Bool
  showChat : Bool
  currentChatId : Option String
  messages : List Message
deriving DecidableEq

/-- `saveMessagesToLocalStorage` from the chat store: resolves
`chatId || currentChatId` JS-style and silently returns when the result is
falsy; otherwise writes a minimal chat record through
`saveChatToLocalStorage`. The boolean records whether a user-visible error was
surfaced (the function has no error path). -/
def saveMessagesToLocalStorage (avail : Bool) (st : ChatState)
    (chats : List LocalStorageChat) (now : String) (messages : List Message)
    (chatId : Option String) : List LocalStorageChat × Bool :=
  let currentChatId := jsOrStr chatId st.currentChatId
  if !truthyOptStr currentChatId then (chats, false)
  else
    (saveChatToLocalStorage avail chats
      { id := currentChatId.getD ""
        urlId := none
        description := none
        messages := messages
        timestamp := now
        metadata := none }, false)

/-- Ambient collaborators and oracle values consumed by
`storeMessageHistory`: the workbench's first artifact, the results of the
external id generators, the workbench file map, the current time, and whether
the primary-store write throws. -/
structure StoreEnv where
  firstArtifactId : Option String
  firstArtifactTitle : Option String
  getUrlIdResult : String
  getNextIdResult : String
  dateNowId : String
  now : String
  workbenchFiles : List (String × FileEntry)
  dbWriteFails : Bool

/-- The reactive cells and hook state read and written by
`storeMessageHistory`: the `urlId` React state, the `initialMessages` and
`archivedMessages` state, and the `chatId`, `description` and `chatMetadata`
atoms. -/
structure ChatSession where
  urlId : Option String
  initialMessages : List Message
  archivedMessages : List Message
  chatIdA : Option String
  descriptionA : Option String
  metadataA : Option IChatMetadata

/-- Observable effects of one `storeMessageHistory` call. -/
structure StoreOutcome where
  snapshotWrite : Option Snapshot := none
  dbWrite : Option (List Message) := none
  dbErrorToast : Bool := false
  localWrite : Option LocalStorageChat := none
  missingIdToast : Bool := false
  navigatedTo : Option String := none
  currentChatIdWrite : Option String := none

/-- Result of `storeMessageHistory`: whether it threw, the updated session
state, and the effects performed before returning or throwing. -/
structure StoreResult where
  threw : Bool
  session : ChatSession
  outcome : StoreOutcome

/-- `typeof a === 'object' && Object.keys(a).includes('type')` test on an
annotation value. -/
def isObjAnn : Ann → Bool
  | Ann.obj _ _ _ => true
  | Ann.tag _ => false

/-- The chat-summary extraction of `storeMessageHistory`: among the last
message's object annotations, the `summary` field of the first one whose
`type` is `chatSummary`. -/
def chatSummaryOf (anns : List Ann) : Option String :=
  match (anns.filter isObjAnn).find? (fun a =>
      match a with
      | Ann.obj t _ _ => t == "chatSummary"
      | _ => false) with
  | some (Ann.obj _ _ s) => s
  | _ => none

/-- Shallow embedding of `storeMessageHistory`: filters `no-store` messages,
assigns a url id and a chat id as the code does, aborts with a user-visible
error when no chat id is resolvable, and otherwise writes to the primary
store (unless the write throws, which only toasts) and always to the
LocalStorage fallback. Reading the last filtered message when every input
message was filtered out mirrors the unguarded
`messages[messages.length - 1].role` access, which throws a TypeError. -/
def storeMessageHistory (db : Bool) (env : StoreEnv) (st : ChatSession)
    (messages : List Message) : StoreResult :=
  if messages.length == 0 then
    { threw := false, session := st, outcome := {} }
  else
    let msgs := messages.filter (fun m => !(m.annotations.contains (Ann.tag "no-store")))
    let assignUrl := !truthyOptStr st.urlId && truthyOptStr env.firstArtifactId && db
    let uId := if assignUrl then some env.getUrlIdResult else st.urlId
    let nav1 : Option String := if assignUrl then some env.getUrlIdResult else none
    let st1 := { st with urlId := uId }
    match msgs.getLast? with
    | none =>
      { threw := true, session := st1, outcome := { navigatedTo := nav1 } }
    | some lastMessage =>
      let chatSummary :=
        if lastMessage.role == Role.assistant then chatSummaryOf lastMessage.annotations
        else none
      let snapshotWrite : Option Snapshot :=
        if truthyOptStr st.chatIdA && db then
          some { chatIndex := lastMessage.id, files := env.workbenchFiles, summary := chatSummary }
        else none
      let desc1 :=
        if !truthyOptStr st.descriptionA && truthyOptStr env.firstArtifactTitle then
          env.firstArtifactTitle
        else st.descriptionA
      let assignId := st.initialMessages.length == 0 && !truthyOptStr st.chatIdA
      let nextId := if db then env.getNextIdResult else env.dateNowId
      let chatId1 := if assignId then some nextId else st.chatIdA
      let currentChatIdWrite : Option String := if assignId then some nextId else none
      let nav2 := if assignId && (!truthyOptStr st.urlId && db) then some nextId else nav1
      let st2 := { st1 with descriptionA := desc1, chatIdA := chatId1 }
      if !truthyOptStr chatId1 then
        { threw := false
          session := st2
          outcome :=
            { snapshotWrite := snapshotWrite
              missingIdToast := true
              navigatedTo := nav2
              currentChatIdWrite := currentChatIdWrite } }
      else
        let finalChatId := chatId1.getD ""
        let allMessages := st.archivedMessages ++ msgs
        { threw := false
          session := st2
          outcome :=
            { snapshotWrite := snapshotWrite
              dbWrite := if db && !env.dbWriteFails then some allMessages else none
              dbErrorToast := db && env.dbWriteFails
              localWrite := some
                { id := finalChatId
                  urlId := some ((jsOrStr uId chatId1).getD "")
                  description :=
                    some (if truthyOptStr desc1 then desc1.getD "" else "Chat " ++ finalChatId)
                  messages := allMessages
                  timestamp := env.now
                  metadata := st.metadataA }
              missingIdToast := false
              navigatedTo := nav2
              currentChatIdWrite := currentChatIdWrite } }

/-! Concrete sample data used in counterexamples and witnesses. -/

/-- Sample three-message chat whose middle message has the empty string as
id. -/
def cexEmptyIdChat : List Message :=
  [⟨"a", Role.user, "m0", []⟩, ⟨"", Role.assistant, "m1", []⟩, ⟨"b", Role.user, "m2", []⟩]

/-- Sample snapshot anchored at the empty id. -/
def cexEmptyAnchorSnapshot : Snapshot := ⟨"", [], none⟩

/-- Sample two-message chat whose second message has the empty string as
id. -/
def cexEmptyIdChat2 : List Message :=
  [⟨"a", Role.user, "m0", []⟩, ⟨"", Role.assistant, "m1", []⟩]

/-- Sample snapshot whose anchor id occurs in no sample chat. -/
def cexForeignSnapshot : Snapshot := ⟨"x", [], none⟩

/-! Helper lemmas about the JS array-primitive models. -/

theorem jsFindIndex_neg_one_le (p : α → Bool) (l : List α) : -1 ≤ jsFindIndex p l := by
  induction l with
  | nil => simp [jsFindIndex]
  | cons x t ih =>
    simp only [jsFindIndex]
    split
    · omega
    · split <;> omega

theorem jsFindIndex_cases (p : α → Bool) (l : List α) :
    jsFindIndex p l = -1 ∨ 0 ≤ jsFindIndex p l := by
  have := jsFindIndex_neg_one_le p l
  omega

theorem jsFindIndex_neg (p : α → Bool) (l : List α) (h : ∀ x ∈ l, p x = false) :
    jsFindIndex p l = -1 := by
  induction l with
  | nil => rfl
  | cons x t ih =>
    have hx : p x = false := h x (List.mem_cons_self x t)
    have ht : jsFindIndex p t = -1 := ih (fun y hy => h y (List.mem_cons_of_mem x hy))
    simp [jsFindIndex, hx, ht]

theorem jsFindIndex_nonneg_of_mem (p : α → Bool) (l : List α) (x : α)
    (hx : x ∈ l) (hp : p x = true) : 0 ≤ jsFindIndex p l := by
  induction l with
  | nil => cases hx
  | cons y t ih =>
    simp only [jsFindIndex]
    split
    · omega
    · rcases List.mem_cons.mp hx with rfl | hmem
      · simp_all
      · have := ih hmem
        split <;> omega

theorem jsFindIndex_lt_length (p : α → Bool) (l : List α) (h : 0 ≤ jsFindIndex p l) :
    jsFindIndex p l < l.length := by
  induction l with
  | nil => simp [jsFindIndex] at h
  | cons x t ih =>
    by_cases hx : p x = true
    · simp only [jsFindIndex, hx, if_pos, List.length_cons]
      omega
    · rcases jsFindIndex_cases p t with ht | ht
      · simp only [jsFindIndex, hx, Bool.false_eq_true, if_false, ht] at h
        omega
      · simp only [jsFindIndex, hx, Bool.false_eq_true, if_false, if_pos ht,
          List.length_cons] at h ⊢
        have := ih ht
        push_cast
        push_cast at this
        omega

theorem jsFindIndex_get (p : α → Bool) (l : List α) (h : 0 ≤ jsFindIndex p l) :
    ∃ x, l[(jsFindIndex p l).toNat]? = some x ∧ p x = true := by
  induction l with
  | nil => simp [jsFindIndex] at h
  | cons y t ih =>
    by_cases hy : p y = true
    · refine ⟨y, ?_, hy⟩
      simp [jsFindIndex, hy]
    · rcases jsFindIndex_cases p t with ht | ht
      · simp only [jsFindIndex, hy, Bool.false_eq_true, if_false, ht] at h
        omega
      · obtain ⟨x, hx, hpx⟩ := ih ht
        refine ⟨x, ?_, hpx⟩
        simp only [jsFindIndex, hy, Bool.false_eq_true, if_false, if_pos ht]
        have h2 : (jsFindIndex p t + 1).toNat = (jsFindIndex p t).toNat + 1 := by omega
        rw [h2]
        simpa using hx

theorem jsFindIndex_min (p : α → Bool) (l : List α) (j : Nat) (x : α)
    (hx : l[j]? = some x) (hp : p x = true) : jsFindIndex p l ≤ (j : Int) := by
  induction l generalizing j with
  | nil => simp at hx
  | cons y t ih =>
    simp only [jsFindIndex]
    split
    · omega
    · rename_i hy
      cases j with
      | zero =>
        simp at hx
        subst hx
        simp [hp] at hy
      | succ j =>
        simp only [List.getElem?_cons_succ] at hx
        have := ih j hx
        split <;> push_cast <;> omega

theorem jsSlice_of_nonneg (a b : Int) (ha : 0 ≤ a) (hb : 0 ≤ b) (l : List α) :
    jsSlice a b l = (l.take b.toNat).drop a.toNat := by
  unfold jsSlice jsSliceBound
  have h1 : ¬ b < 0 := by omega
  have h2 : ¬ a < 0 := by omega
  simp only [h1, if_false, h2]
  have htake : l.take (min b.toNat l.length) = l.take b.toNat := by
    rcases Nat.le_total b.toNat l.length with h | h
    · rw [Nat.min_eq_left h]
    · rw [Nat.min_eq_right h, List.take_length, List.take_of_length_le h]
  rw [htake]
  rcases Nat.le_total a.toNat l.length with h | h
  · rw [Nat.min_eq_left h]
  · rw [Nat.min_eq_right h]
    have hlen : (l.take b.toNat).length ≤ l.length := by
      simp [List.length_take]
    rw [List.drop_eq_nil_of_le hlen, List.drop_eq_nil_of_le (le_trans hlen h)]

theorem endingIdxOf_nonneg (M : List Message) (rid : Option String) :
    0 ≤ endingIdxOf M rid := by
  cases rid with
  | none => simp [endingIdxOf]
  | some r =>
    simp only [endingIdxOf]
    split
    · omega
    · have := jsFindIndex_neg_one_le (fun m => m.id == r) M
      omega

theorem startingIdxOf_cases (M : List Message) (sn : Option Snapshot) (rid : Option String) :
    startingIdxOf M sn rid = -1 ∨
      (0 ≤ startingIdxOf M sn rid ∧ startingIdxOf M sn rid < endingIdxOf M rid ∧
        startingIdxOf M sn rid = snapshotIdxOf M sn) := by
  simp only [startingIdxOf]
  split
  · left; rfl
  · split
    · rename_i h
      right
      exact ⟨h.1, h.2, rfl⟩
    · left; rfl

theorem take_append_drop_take (l : List α) (a b : Nat) (h : a ≤ b) :
    l.take a ++ (l.take b).drop a = l.take b := by
  have h1 : l.take a = (l.take b).take a := by
    rw [List.take_take, Nat.min_eq_left h]
  rw [h1, List.take_append_drop]

theorem drop_two_cons_cons (u a : α) (L : List α) : (u :: a :: L).drop 2 = L := rfl

theorem processStoredMessages_archived (M : List Message) (sn : Option Snapshot)
    (rid : Option String) (genId commandActions : String) :
    (processStoredMessages M sn rid genId commandActions).archived =
      if 0 ≤ startingIdxOf M sn rid then jsSlice 0 (startingIdxOf M sn rid + 1) M
      else [] := rfl

theorem processStoredMessages_active (M : List Message) (sn : Option Snapshot)
    (rid : Option String) (genId commandActions : String) :
    (processStoredMessages M sn rid genId commandActions).active =
      if 0 < startingIdxOf M sn rid then
        restoreUserMessage genId ::
          restoreAssistantMessage ((M[(snapshotIdxOf M sn).toNat]?.map Message.id).getD "")
            (validSnapshotOf sn).summary sn commandActions ::
          jsSlice (startingIdxOf M sn rid + 1) (endingIdxOf M rid) M
      else jsSlice (startingIdxOf M sn rid + 1) (endingIdxOf M rid) M := rfl

/-- C4: for every message sequence, snapshot and rewind target, the archived
prefix concatenated with the active window stripped of the synthetic restore
messages reconstructs exactly `M[0..endingIdx)`, `endingIdx` being the
resolver's computed window end. -/
theorem archived_active_reconstruct (M : List Message) (sn : Option Snapshot)
    (rid : Option String) (genId commandActions : String) :
    (processStoredMessages M sn rid genId commandActions).archived ++
      (processStoredMessages M sn rid genId commandActions).active.drop
        (syntheticCount M sn rid) =
      M.take (endingIdxOf M rid).toNat := by
  have he := endingIdxOf_nonneg M rid
  rw [processStoredMessages_archived, processStoredMessages_active]
  rcases startingIdxOf_cases M sn rid with h | ⟨h0, hlt, _⟩
  · have h1 : ¬ (0:Int) ≤ startingIdxOf M sn rid := by omega
    have h2 : ¬ (0:Int) < startingIdxOf M sn rid := by omega
    simp only [syntheticCount, if_neg h1, if_neg h2, List.nil_append, List.drop_zero, h]
    have h3 : (-1 : Int) + 1 = 0 := by norm_num
    rw [h3, jsSlice_of_nonneg 0 (endingIdxOf M rid) le_rfl he]
    simp
  · have hs1 : (0:Int) ≤ startingIdxOf M sn rid + 1 := by omega
    have hab : (startingIdxOf M sn rid + 1).toNat ≤ (endingIdxOf M rid).toNat := by omega
    rw [jsSlice_of_nonneg (startingIdxOf M sn rid + 1) (endingIdxOf M rid) hs1 he,
      jsSlice_of_nonneg 0 (startingIdxOf M sn rid + 1) le_rfl hs1]
    by_cases hpos : (0:Int) < startingIdxOf M sn rid
    · simp only [syntheticCount, if_pos hpos, if_pos h0, drop_two_cons_cons,
        Int.toNat_zero, List.drop_zero]
      exact take_append_drop_take M _ _ hab
    · simp only [syntheticCount, if_neg hpos, if_pos h0, Int.toNat_zero, List.drop_zero]
      exact take_append_drop_take M _ _ hab

/-- C5: resolving a message sequence with distinct, non-empty ids with no
snapshot and no rewind target yields the full sequence as active and an empty
archive. -/
theorem resolve_no_snapshot_no_rewind_identity (M : List Message)
    (genId commandActions : String)
    (hnodup : (M.map Message.id).Nodup) (hne : ∀ m ∈ M, m.id ≠ "") :
    (processStoredMessages M none none genId commandActions).active = M ∧
    (processStoredMessages M none none genId commandActions).archived = [] := by
  have hsnap : snapshotIdxOf M none = -1 := by
    apply jsFindIndex_neg
    intro m hm
    simpa [validSnapshotOf] using hne m hm
  have hst : startingIdxOf M none none = -1 := by
    simp [startingIdxOf, hsnap]
  have hend : endingIdxOf M none = (M.length : Int) := rfl
  constructor
  · rw [processStoredMessages_active]
    have h2 : ¬ (0:Int) < startingIdxOf M none none := by omega
    rw [if_neg h2, hst, hend]
    have h3 : (-1 : Int) + 1 = 0 := by norm_num
    rw [h3, jsSlice_of_nonneg 0 (M.length : Int) le_rfl (by positivity)]
    simp
  · rw [processStoredMessages_archived]
    have h1 : ¬ (0:Int) ≤ startingIdxOf M none none := by omega
    rw [if_neg h1]

/-- C5 witness: the identity resolution evaluated on a concrete one-message
chat. -/
theorem resolve_no_snapshot_no_rewind_identity_witness :
    (processStoredMessages [⟨"a", Role.user, "hi", []⟩] none none "g" "cmd").active =
        [⟨"a", Role.user, "hi", []⟩] ∧
    (processStoredMessages [⟨"a", Role.user, "hi", []⟩] none none "g" "cmd").archived = [] :=
  resolve_no_snapshot_no_rewind_identity [⟨"a", Role.user, "hi", []⟩] "g" "cmd"
    (by decide) (by decide)

/-- C1 counterexample: a provided rewind id `"b"` absent from the messages
gives `endingIdx = 0`, not the length, and the resolved window is empty rather
than the full no-rewind window. -/
theorem rewindTarget_notFound_claim_cex :
    endingIdxOf [⟨"a", Role.user, "hi", []⟩] (some "b") ≠
        (([⟨"a", Role.user, "hi", []⟩] : List Message).length : Int) ∧
    (processStoredMessages [⟨"a", Role.user, "hi", []⟩] none (some "b") "g" "cmd").active ≠
      (processStoredMessages [⟨"a", Role.user, "hi", []⟩] none none "g" "cmd").active := by
  refine ⟨by decide, by decide⟩

/-- C1 amended: for a provided non-empty rewind id that matches no message id,
`endingIdx` is `findIndex + 1 = 0`, so the resolved window is empty (active
and archived both empty), not the full sequence. -/
theorem rewindTarget_notFound_empty_window (M : List Message) (sn : Option Snapshot)
    (r genId commandActions : String) (hr : r ≠ "")
    (habs : ∀ m ∈ M, m.id ≠ r) :
    endingIdxOf M (some r) = 0 ∧
    (processStoredMessages M sn (some r) genId commandActions).active = [] ∧
    (processStoredMessages M sn (some r) genId commandActions).archived = [] := by
  have hfi : jsFindIndex (fun m => m.id == r) M = -1 := by
    apply jsFindIndex_neg
    intro m hm
    simpa using habs m hm
  have hre : (r == "") = false := by simpa using hr
  have he : endingIdxOf M (some r) = 0 := by
    simp [endingIdxOf, hre, hfi]
  have hst : startingIdxOf M sn (some r) = -1 := by
    simp only [startingIdxOf, he]
    split
    · rfl
    · have h1 : ¬ (0 ≤ snapshotIdxOf M sn ∧ snapshotIdxOf M sn < 0) := by omega
      rw [if_neg h1]
  refine ⟨he, ?_, ?_⟩
  · rw [processStoredMessages_active]
    have h2 : ¬ (0:Int) < startingIdxOf M sn (some r) := by omega
    rw [if_neg h2, hst, he]
    have h3 : (-1 : Int) + 1 = 0 := by norm_num
    rw [h3, jsSlice_of_nonneg 0 0 le_rfl le_rfl]
    simp
  · rw [processStoredMessages_archived]
    have h1 : ¬ (0:Int) ≤ startingIdxOf M sn (some r) := by omega
    rw [if_neg h1]

/-- C1 amended witness: the empty resolved window evaluated on a concrete
one-message chat with the absent rewind id `"b"`. -/
theorem rewindTarget_notFound_empty_window_witness :
    endingIdxOf [⟨"a", Role.user, "hi", []⟩] (some "b") = 0 ∧
    (processStoredMessages [⟨"a", Role.user, "hi", []⟩] none (some "b") "g" "cmd").active = [] ∧
    (processStoredMessages [⟨"a", Role.user, "hi", []⟩] none (some "b") "g" "cmd").archived = [] :=
  rewindTarget_notFound_empty_window [⟨"a", Role.user, "hi", []⟩] none "b" "g" "cmd"
    (by decide) (by decide)

/-- C2 counterexample: with a message list containing the empty id at a
positive index, a snapshot anchored at that empty id, and the rewind target
equal to that anchor id, the claim's hypotheses hold, yet the active window is
the whole list rather than `M[0..idx(r)+1)`, because the empty-string
`rewindTo` parameter is falsy and `endingIdx` falls back to the full
length. -/
theorem rewind_to_anchor_claim_cex :
    0 < snapshotIdxOf cexEmptyIdChat (some cexEmptyAnchorSnapshot) ∧
    (cexEmptyIdChat[(snapshotIdxOf cexEmptyIdChat
        (some cexEmptyAnchorSnapshot)).toNat]?.map Message.id) = some "" ∧
    (processStoredMessages cexEmptyIdChat (some cexEmptyAnchorSnapshot)
        (some "") "g" "cmd").active ≠
      cexEmptyIdChat.take
        ((jsFindIndex (fun m => m.id == ("" : String)) cexEmptyIdChat).toNat + 1) := by
  refine ⟨by decide, by decide, by decide⟩

/-- C2 amended: for a non-empty rewind target id equal to the id of the
message at a positive snapshot index, the override forces
`startingIdx = -1`: the active window is `M[0..idx(r)+1)` with no synthetic
messages and an empty archive. -/
theorem rewind_to_anchor_override (M : List Message) (S : Snapshot)
    (r genId commandActions : String) (hr : r ≠ "")
    (hpos : 0 < snapshotIdxOf M (some S))
    (hanchor : (M[(snapshotIdxOf M (some S)).toNat]?.map Message.id) = some r) :
    startingIdxOf M (some S) (some r) = -1 ∧
    (processStoredMessages M (some S) (some r) genId commandActions).active =
      M.take ((jsFindIndex (fun m => m.id == r) M).toNat + 1) ∧
    (processStoredMessages M (some S) (some r) genId commandActions).archived = [] ∧
    syntheticCount M (some S) (some r) = 0 := by
  obtain ⟨m, hm, hmid⟩ := Option.map_eq_some'.mp hanchor
  have hmem : m ∈ M := List.getElem?_mem hm
  have hq : (fun m : Message => m.id == r) m = true := by simpa using hmid
  have hfi : 0 ≤ jsFindIndex (fun m => m.id == r) M :=
    jsFindIndex_nonneg_of_mem _ M m hmem hq
  have hre : (r == "") = false := by simpa using hr
  have he : endingIdxOf M (some r) = jsFindIndex (fun m => m.id == r) M + 1 := by
    simp [endingIdxOf, hre]
  have hmatch : rewindMatchesAt M (some r) (snapshotIdxOf M (some S)) = true := by
    simp only [rewindMatchesAt, hm]
    simpa using hmid
  have hst : startingIdxOf M (some S) (some r) = -1 := by
    simp only [startingIdxOf]
    rw [if_pos ⟨hpos, hmatch⟩]
  have htn : (endingIdxOf M (some r)).toNat =
      (jsFindIndex (fun m => m.id == r) M).toNat + 1 := by
    omega
  refine ⟨hst, ?_, ?_, ?_⟩
  · rw [processStoredMessages_active]
    have h2 : ¬ (0:Int) < startingIdxOf M (some S) (some r) := by omega
    rw [if_neg h2, hst]
    have h3 : (-1 : Int) + 1 = 0 := by norm_num
    rw [h3, jsSlice_of_nonneg 0 (endingIdxOf M (some r)) le_rfl (endingIdxOf_nonneg M (some r))]
    simp [htn]
  · rw [processStoredMessages_archived]
    have h1 : ¬ (0:Int) ≤ startingIdxOf M (some S) (some r) := by omega
    rw [if_neg h1]
  · simp only [syntheticCount, hst]
    norm_num

/-- C2 amended witness: rewinding exactly to the anchor id `"b"` of a
three-message chat yields the first two messages with no synthetics and an
empty archive. -/
theorem rewind_to_anchor_override_witness :
    startingIdxOf [⟨"a", Role.user, "m0", []⟩, ⟨"b", Role.assistant, "m1", []⟩,
        ⟨"c", Role.user, "m2", []⟩] (some ⟨"b", [], none⟩) (some "b") = -1 ∧
    (processStoredMessages [⟨"a", Role.user, "m0", []⟩, ⟨"b", Role.assistant, "m1", []⟩,
        ⟨"c", Role.user, "m2", []⟩] (some ⟨"b", [], none⟩) (some "b") "g" "cmd").active =
      ([⟨"a", Role.user, "m0", []⟩, ⟨"b", Role.assistant, "m1", []⟩,
        ⟨"c", Role.user, "m2", []⟩] : List Message).take
        ((jsFindIndex (fun m : Message => m.id == "b")
          [⟨"a", Role.user, "m0", []⟩, ⟨"b", Role.assistant, "m1", []⟩,
            ⟨"c", Role.user, "m2", []⟩]).toNat + 1) ∧
    (processStoredMessages [⟨"a", Role.user, "m0", []⟩, ⟨"b", Role.assistant, "m1", []⟩,
        ⟨"c", Role.user, "m2", []⟩] (some ⟨"b", [], none⟩) (some "b") "g" "cmd").archived = [] ∧
    syntheticCount [⟨"a", Role.user, "m0", []⟩, ⟨"b", Role.assistant, "m1", []⟩,
        ⟨"c", Role.user, "m2", []⟩] (some ⟨"b", [], none⟩) (some "b") = 0 :=
  rewind_to_anchor_override _ _ "b" "g" "cmd" (by decide) (by decide) (by decide)

/-- C3: with a snapshot anchored at a positive index and a rewind target
strictly after the anchor (or absent), the resolver prepends exactly two
synthetic messages ahead of `M[snapshotIdx+1 .. endingIdx)`: a hidden user
message tagged `no-store` and `hidden`, and an assistant message whose id
equals the snapshot's `chatIndex`. -/
theorem snapshot_restore_prepends_two_synthetics (M : List Message) (S : Snapshot)
    (rid : Option String) (genId commandActions : String)
    (hpos : 0 < snapshotIdxOf M (some S))
    (hrid : rid = none ∨ ∃ r, rid = some r ∧
      snapshotIdxOf M (some S) < jsFindIndex (fun m => m.id == r) M) :
    ∃ u a, (processStoredMessages M (some S) rid genId commandActions).active =
        u :: a :: (M.take (endingIdxOf M rid).toNat).drop
          ((snapshotIdxOf M (some S)).toNat + 1) ∧
      u.role = Role.user ∧ Ann.tag "no-store" ∈ u.annotations ∧
      Ann.tag "hidden" ∈ u.annotations ∧
      a.role = Role.assistant ∧ a.id = S.chatIndex := by
  have hsnap : snapshotIdxOf M (some S) =
      jsFindIndex (fun m => m.id == S.chatIndex) M := rfl
  have hs0 : (0:Int) ≤ jsFindIndex (fun m => m.id == S.chatIndex) M := by
    rw [← hsnap]; omega
  obtain ⟨ms, hms, hpms⟩ := jsFindIndex_get (fun m => m.id == S.chatIndex) M hs0
  have hmsid : ms.id = S.chatIndex := by simpa using hpms
  have hslen : jsFindIndex (fun m => m.id == S.chatIndex) M < (M.length : Int) :=
    jsFindIndex_lt_length _ M hs0
  have hlt : snapshotIdxOf M (some S) < endingIdxOf M rid := by
    rcases hrid with rfl | ⟨r, rfl, hgt⟩
    · simp only [endingIdxOf, hsnap]
      exact hslen
    · simp only [endingIdxOf]
      split
      · rw [hsnap]; exact hslen
      · omega
  have hmatch : rewindMatchesAt M rid (snapshotIdxOf M (some S)) = false := by
    rcases hrid with rfl | ⟨r, rfl, hgt⟩
    · simp [rewindMatchesAt]
    · rw [hsnap] at hgt
      simp only [rewindMatchesAt, hsnap, hms]
      have hne : ms.id ≠ r := by
        intro heq
        have hmin := jsFindIndex_min (fun m => m.id == r) M
          (jsFindIndex (fun m => m.id == S.chatIndex) M).toNat ms hms (by simpa using heq)
        omega
      simpa using hne
  have hnov : ¬ (0 < snapshotIdxOf M (some S) ∧
      rewindMatchesAt M rid (snapshotIdxOf M (some S)) = true) := by
    rintro ⟨-, hmm⟩
    rw [hmatch] at hmm
    exact Bool.false_ne_true hmm
  have hst : startingIdxOf M (some S) rid = snapshotIdxOf M (some S) := by
    simp only [startingIdxOf]
    rw [if_neg hnov, if_pos ⟨by omega, hlt⟩]
  refine ⟨restoreUserMessage genId,
    restoreAssistantMessage
      ((M[(snapshotIdxOf M (some S)).toNat]?.map Message.id).getD "")
      (validSnapshotOf (some S)).summary (some S) commandActions,
    ?_, rfl, by simp [restoreUserMessage], by simp [restoreUserMessage], rfl, ?_⟩
  · rw [processStoredMessages_active, if_pos (by rw [hst]; exact hpos), hst]
    have h4 : (snapshotIdxOf M (some S) + 1).toNat =
        (snapshotIdxOf M (some S)).toNat + 1 := by omega
    rw [jsSlice_of_nonneg _ _ (by omega) (endingIdxOf_nonneg M rid), h4]
  · show ((M[(snapshotIdxOf M (some S)).toNat]?.map Message.id).getD "") = S.chatIndex
    rw [hsnap, hms]
    simpa using hmsid

/-- C3 witness: restoring a three-message chat with the snapshot anchored at
the second message and no rewind target prepends the synthetic pair ahead of
the final message. -/
theorem snapshot_restore_prepends_two_synthetics_witness :
    ∃ u a, (processStoredMessages [⟨"a", Role.user, "m0", []⟩, ⟨"b", Role.assistant, "m1", []⟩,
        ⟨"c", Role.user, "m2", []⟩] (some ⟨"b", [], none⟩) none "g" "cmd").active =
        u :: a :: (([⟨"a", Role.user, "m0", []⟩, ⟨"b", Role.assistant, "m1", []⟩,
            ⟨"c", Role.user, "m2", []⟩] : List Message).take
          (endingIdxOf [⟨"a", Role.user, "m0", []⟩, ⟨"b", Role.assistant, "m1", []⟩,
            ⟨"c", Role.user, "m2", []⟩] none).toNat).drop
          ((snapshotIdxOf [⟨"a", Role.user, "m0", []⟩, ⟨"b", Role.assistant, "m1", []⟩,
            ⟨"c", Role.user, "m2", []⟩] (some ⟨"b", [], none⟩)).toNat + 1) ∧
      u.role = Role.user ∧ Ann.tag "no-store" ∈ u.annotations ∧
      Ann.tag "hidden" ∈ u.annotations ∧
      a.role = Role.assistant ∧ a.id = Snapshot.chatIndex ⟨"b", [], none⟩ :=
  snapshot_restore_prepends_two_synthetics _ _ none "g" "cmd" (by decide) (Or.inl rfl)

/-- C6 counterexample: for a two-message chat whose second message has the
empty id, a snapshot whose `chatIndex` `"x"` occurs nowhere behaves
differently from an absent snapshot, because the absent-snapshot default
anchor is the empty string, which does occur. -/
theorem snapshot_absent_claim_cex :
    (cexEmptyIdChat2.all (fun m => !(m.id == "x")) = true) ∧
    (processStoredMessages cexEmptyIdChat2 (some cexForeignSnapshot) none "g" "cmd").archived ≠
      (processStoredMessages cexEmptyIdChat2 none none "g" "cmd").archived := by
  refine ⟨by decide, by decide⟩

/-- C6 amended: a snapshot whose `chatIndex` matches no message id behaves
exactly like an absent snapshot, provided additionally that no message id is
the empty string (the absent-snapshot sentinel anchor). -/
theorem snapshot_chatIndex_absent_like_no_snapshot (M : List Message) (S : Snapshot)
    (rid : Option String) (genId commandActions : String)
    (habs : ∀ m ∈ M, m.id ≠ S.chatIndex) (hne : ∀ m ∈ M, m.id ≠ "") :
    processStoredMessages M (some S) rid genId commandActions =
      processStoredMessages M none rid genId commandActions := by
  have hS : snapshotIdxOf M (some S) = -1 := by
    apply jsFindIndex_neg
    intro m hm
    simpa [validSnapshotOf] using habs m hm
  have hN : snapshotIdxOf M none = -1 := by
    apply jsFindIndex_neg
    intro m hm
    simpa [validSnapshotOf] using hne m hm
  have hstS : startingIdxOf M (some S) rid = -1 := by
    simp [startingIdxOf, hS]
  have hstN : startingIdxOf M none rid = -1 := by
    simp [startingIdxOf, hN]
  have hactive : (processStoredMessages M (some S) rid genId commandActions).active =
      (processStoredMessages M none rid genId commandActions).active := by
    rw [processStoredMessages_active, processStoredMessages_active,
      if_neg (by rw [hstS]; norm_num), if_neg (by rw [hstN]; norm_num), hstS, hstN]
  have harch : (processStoredMessages M (some S) rid genId commandActions).archived =
      (processStoredMessages M none rid genId commandActions).archived := by
    rw [processStoredMessages_archived, processStoredMessages_archived,
      if_neg (by rw [hstS]; norm_num), if_neg (by rw [hstN]; norm_num)]
  calc processStoredMessages M (some S) rid genId commandActions
      = ⟨(processStoredMessages M (some S) rid genId commandActions).active,
          (processStoredMessages M (some S) rid genId commandActions).archived⟩ := rfl
    _ = ⟨(processStoredMessages M none rid genId commandActions).active,
          (processStoredMessages M none rid genId commandActions).archived⟩ := by
        rw [hactive, harch]
    _ = processStoredMessages M none rid genId commandActions := rfl

/-- C6 amended witness: the equivalence evaluated on a concrete one-message
chat and a snapshot anchored at the absent id `"x"`. -/
theorem snapshot_chatIndex_absent_like_no_snapshot_witness :
    processStoredMessages [⟨"a", Role.user, "hi", []⟩] (some ⟨"x", [], none⟩) none "g" "cmd" =
      processStoredMessages [⟨"a", Role.user, "hi", []⟩] none none "g" "cmd" :=
  snapshot_chatIndex_absent_like_no_snapshot _ _ none "g" "cmd" (by decide) (by decide)

/-! Lemmas about the LocalStorage fallback store. -/

theorem saveChat_nil (chat : LocalStorageChat) :
    saveChatToLocalStorage true [] chat = [chat] := by
  simp [saveChatToLocalStorage, jsFindIndex]

theorem saveChat_cons_of_pos (c : LocalStorageChat) (t : List LocalStorageChat)
    (chat : LocalStorageChat) (hc : (c.id == chat.id) = true) :
    saveChatToLocalStorage true (c :: t) chat = chat :: t := by
  simp [saveChatToLocalStorage, jsFindIndex, hc]

theorem saveChat_cons_of_neg (c : LocalStorageChat) (t : List LocalStorageChat)
    (chat : LocalStorageChat) (hc : (c.id == chat.id) = false) :
    saveChatToLocalStorage true (c :: t) chat = c :: saveChatToLocalStorage true t chat := by
  rcases jsFindIndex_cases (fun x : LocalStorageChat => x.id == chat.id) t with ht | ht
  · simp [saveChatToLocalStorage, jsFindIndex, hc, ht]
  · have h1 : (0:Int) ≤ jsFindIndex (fun x : LocalStorageChat => x.id == chat.id) t + 1 := by
      omega
    have h2 : (jsFindIndex (fun x : LocalStorageChat => x.id == chat.id) t + 1).toNat =
        (jsFindIndex (fun x : LocalStorageChat => x.id == chat.id) t).toNat + 1 := by
      omega
    simp [saveChatToLocalStorage, jsFindIndex, hc, ht, h1, h2]

theorem find_save (chats : List LocalStorageChat) (chat : LocalStorageChat) :
    (saveChatToLocalStorage true chats chat).find? (fun c => c.id == chat.id) = some chat := by
  induction chats with
  | nil =>
    rw [saveChat_nil]
    simp [List.find?]
  | cons c t ih =>
    by_cases hc : (c.id == chat.id) = true
    · rw [saveChat_cons_of_pos c t chat hc]
      simp [List.find?]
    · rw [saveChat_cons_of_neg c t chat (by simpa using hc)]
      rw [List.find?_cons_of_neg _ (by simpa using hc)]
      exact ih

theorem filter_save (chats : List LocalStorageChat) (chat : LocalStorageChat) :
    (saveChatToLocalStorage true chats chat).filter (fun c => !(c.id == chat.id)) =
      chats.filter (fun c => !(c.id == chat.id)) := by
  induction chats with
  | nil =>
    rw [saveChat_nil]
    simp [List.filter]
  | cons c t ih =>
    by_cases hc : (c.id == chat.id) = true
    · rw [saveChat_cons_of_pos c t chat hc]
      simp [List.filter_cons, hc]
    · rw [saveChat_cons_of_neg c t chat (by simpa using hc)]
      simp [List.filter_cons, hc, ih]

theorem countP_save (chats : List LocalStorageChat) (chat : LocalStorageChat) :
    (saveChatToLocalStorage true chats chat).countP (fun c => c.id == chat.id) =
      max (chats.countP (fun c => c.id == chat.id)) 1 := by
  induction chats with
  | nil =>
    rw [saveChat_nil]
    simp [List.countP_cons]
  | cons c t ih =>
    by_cases hc : (c.id == chat.id) = true
    · rw [saveChat_cons_of_pos c t chat hc]
      simp [List.countP_cons, hc]
    · rw [saveChat_cons_of_neg c t chat (by simpa using hc)]
      simp [List.countP_cons, hc, ih]

/-- C8: a chat saved through the fallback store and immediately loaded by its
id comes back with identical messages, description and metadata. -/
theorem saveChat_load_roundtrip (chats : List LocalStorageChat) (chat : LocalStorageChat) :
    ∃ c, getChatFromLocalStorage true (saveChatToLocalStorage true chats chat) chat.id =
        some c ∧
      c.messages = chat.messages ∧ c.description = chat.description ∧
      c.metadata = chat.metadata := by
  refine ⟨chat, ?_, rfl, rfl, rfl⟩
  simpa [getChatFromLocalStorage] using find_save chats chat

/-- C9: saving a chat replaces the first entry with the same id in place
(length preserved) or appends when the id is new, leaves every entry with a
different id untouched, and creates no duplicate entry for the saved id. -/
theorem saveChat_frame_properties (chats : List LocalStorageChat) (chat : LocalStorageChat) :
    ((∃ c ∈ chats, c.id = chat.id) →
      saveChatToLocalStorage true chats chat =
        chats.set (jsFindIndex (fun c => c.id == chat.id) chats).toNat chat ∧
      (saveChatToLocalStorage true chats chat).length = chats.length) ∧
    ((∀ c ∈ chats, c.id ≠ chat.id) →
      saveChatToLocalStorage true chats chat = chats ++ [chat]) ∧
    (saveChatToLocalStorage true chats chat).filter (fun c => !(c.id == chat.id)) =
      chats.filter (fun c => !(c.id == chat.id)) ∧
    (saveChatToLocalStorage true chats chat).countP (fun c => c.id == chat.id) =
      max (chats.countP (fun c => c.id == chat.id)) 1 := by
  refine ⟨?_, ?_, filter_save chats chat, countP_save chats chat⟩
  · rintro ⟨c, hmem, hid⟩
    have hnn : (0:Int) ≤ jsFindIndex (fun c : LocalStorageChat => c.id == chat.id) chats :=
      jsFindIndex_nonneg_of_mem _ chats c hmem (by simpa using hid)
    have hsave : saveChatToLocalStorage true chats chat =
        chats.set (jsFindIndex (fun c : LocalStorageChat => c.id == chat.id) chats).toNat
          chat := by
      simp [saveChatToLocalStorage, hnn]
    exact ⟨hsave, by rw [hsave, List.length_set]⟩
  · intro h
    have hneg : jsFindIndex (fun c : LocalStorageChat => c.id == chat.id) chats = -1 := by
      apply jsFindIndex_neg
      intro x hx
      simpa using h x hx
    simp [saveChatToLocalStorage, hneg]

/-- C9 witness: replacing the only entry of a one-chat store in place. -/
theorem saveChat_frame_properties_witness :
    saveChatToLocalStorage true [⟨"1", none, none, [], "t0", none⟩]
        ⟨"1", none, some "d", [], "t1", none⟩ =
      ([⟨"1", none, none, [], "t0", none⟩] : List LocalStorageChat).set
        (jsFindIndex
          (fun c : LocalStorageChat =>
            c.id == (⟨"1", none, some "d", [], "t1", none⟩ : LocalStorageChat).id)
          [⟨"1", none, none, [], "t0", none⟩]).toNat
        ⟨"1", none, some "d", [], "t1", none⟩ ∧
    (saveChatToLocalStorage true [⟨"1", none, none, [], "t0", none⟩]
        ⟨"1", none, some "d", [], "t1", none⟩).length =
      ([⟨"1", none, none, [], "t0", none⟩] : List LocalStorageChat).length :=
  (saveChat_frame_properties [⟨"1", none, none, [], "t0", none⟩]
    ⟨"1", none, some "d", [], "t1", none⟩).1 (by decide)

/-- C10: when neither the `chatId` argument nor the store's `currentChatId` is
truthy, `saveMessagesToLocalStorage` is a silent no-op: the stored chat list
is unchanged and no error is surfaced. -/
theorem saveMessages_noop_without_chatId (avail : Bool) (st : ChatState)
    (chats : List LocalStorageChat) (now : String) (messages : List Message)
    (chatId : Option String)
    (h1 : truthyOptStr chatId = false) (h2 : truthyOptStr st.currentChatId = false) :
    saveMessagesToLocalStorage avail st chats now messages chatId = (chats, false) := by
  simp [saveMessagesToLocalStorage, jsOrStr, h1, h2]

/-- C10 witness: the no-op evaluated with both ids absent. -/
theorem saveMessages_noop_without_chatId_witness :
    saveMessagesToLocalStorage true ⟨false, false, true, none, []⟩ [] "t0"
        [⟨"a", Role.user, "hi", []⟩] none = ([], false) :=
  saveMessages_noop_without_chatId true ⟨false, false, true, none, []⟩ [] "t0"
    [⟨"a", Role.user, "hi", []⟩] none rfl rfl

/-- C7: a non-empty message list whose messages all carry the `no-store` tag
makes `storeMessageHistory` fail (the unguarded read of the last filtered
message throws) before writing to any store and with no missing-chat-id
error, even though a chat id is resolvable — an additional failure mode
beyond the missing-chat-id abort the claim describes as the only one. -/
theorem storeMessageHistory_throws_on_all_no_store :
    (storeMessageHistory true
        ⟨none, none, "u", "n", "d", "t", [], false⟩
        ⟨none, [⟨"p", Role.user, "prev", []⟩], [], some "1", none, none⟩
        [⟨"m1", Role.user, "x", [Ann.tag "no-store"]⟩]).threw = true ∧
    (storeMessageHistory true
        ⟨none, none, "u", "n", "d", "t", [], false⟩
        ⟨none, [⟨"p", Role.user, "prev", []⟩], [], some "1", none, none⟩
        [⟨"m1", Role.user, "x", [Ann.tag "no-store"]⟩]).outcome.dbWrite = none ∧
    (storeMessageHistory true
        ⟨none, none, "u", "n", "d", "t", [], false⟩
        ⟨none, [⟨"p", Role.user, "prev", []⟩], [], some "1", none, none⟩
        [⟨"m1", Role.user, "x", [Ann.tag "no-store"]⟩]).outcome.localWrite = none ∧
    (storeMessageHistory true
        ⟨none, none, "u", "n", "d", "t", [], false⟩
        ⟨none, [⟨"p", Role.user, "prev", []⟩], [], some "1", none, none⟩
        [⟨"m1", Role.user, "x", [Ann.tag "no-store"]⟩]).outcome.snapshotWrite = none ∧
    (storeMessageHistory true
        ⟨none, none, "u", "n", "d", "t", [], false⟩
        ⟨none, [⟨"p", Role.user, "prev", []⟩], [], some "1", none, none⟩
        [⟨"m1", Role.user, "x", [Ann.tag "no-store"]⟩]).outcome.missingIdToast = false ∧
    truthyOptStr (ChatSession.chatIdA
        ⟨none, [⟨"p", Role.user, "prev", []⟩], [], some "1", none, none⟩) = true :=
  ⟨rfl, rfl, rfl, rfl, rfl, rfl⟩
